import Mathlib

/-!
Verification development for the proposals.network repository.

The repository supplies two concerns in one staged file:
1. worker post-message envelope types (`PostMessageDataRequest`,
   `PostMessageRequest`, `PostMessageResponse`, `PostMessage`);
2. a Vite build configuration with `readCanisterIds`, `dfxCanisterIds`
   and the exported `defineConfig` callback, which synthesize
   environment variables from `canister_ids.json` and `dfx.json`.

JavaScript objects built by `reduce` with spread are modelled as
association lists with spread-update semantics (`recSet`): updating an
existing key keeps its position and overwrites its value, a new key is
appended.  An `undefined` property value is modelled as `none` in
`Option String`, so a record is `List (String × Option String)`:
a key bound to `none` is present (as in JS, where a computed property
assigned `undefined` still creates the key).  File reading and JSON
parsing are modelled by an `Option` input: `none` stands for a
read/parse failure, `some` for the successfully parsed value.
-/

/-- A JavaScript object with string-or-undefined values, as produced by the
spread-based `reduce` folds in the build configuration. -/
abbrev Record : Type := List (String × Option String)

/-- The keys of a record, in JS property order. -/
def recKeys (r : Record) : List String := r.map Prod.fst

/-- Property lookup: `some v` when the key is present bound to `v`
(where `v = none` models the JS value `undefined`), `none` when absent. -/
def recGet (r : Record) (k : String) : Option (Option String) :=
  (r.find? (fun p => p.1 = k)).map Prod.snd

/-- JS spread update `\x7b...acc, [k]: v\x7d`: an existing key keeps its
position and gets the new value, a fresh key is appended at the end. -/
def recSet (r : Record) (k : String) (v : Option String) : Record :=
  if (recKeys r).contains k then
    r.map (fun p => if p.1 = k then (k, v) else p)
  else
    r ++ [(k, v)]

/-- JS object merge `\x7b...a, ...b\x7d`: fold the bindings of `b` into `a`. -/
def recMerge (a b : Record) : Record :=
  b.foldl (fun acc e => recSet acc e.1 e.2) a

/-- The parsed per-canister object of `canister_ids.json`.  The source
declares `type Details = \x7b ic?; staging?; local? \x7d` inside
`readCanisterIds`, but the runtime value comes from `JSON.parse`, so the
object may hold an entry for any network name; it is modelled as the
parsed object itself. -/
abbrev CanisterDetails : Type := List (String × String)

/-- Runtime property lookup `canisterDetails[network as keyof Details]`:
`none` models the JS value `undefined` when the network has no entry. -/
def detailsGet (d : CanisterDetails) (network : String) : Option String :=
  (d.find? (fun p => p.1 = network)).map Prod.snd

/-- JS `String.prototype.toUpperCase`, modelled per character (canister
names are ASCII, where the JS and per-character conversions agree). -/
def jsToUpperCase (s : String) : String :=
  String.mk (s.data.map Char.toUpper)

/-- JS `String.prototype.replaceAll` with a single-character pattern and a
single-character replacement: a per-character map. -/
def jsReplaceAllChar (s : String) (pat rep : Char) : String :=
  String.mk (s.data.map (fun c => if c = pat then rep else c))

/-- JS `String.prototype.replaceAll` with a single-character pattern and
the empty replacement: a per-character filter. -/
def jsRemoveAllChar (s : String) (pat : Char) : String :=
  String.mk (s.data.filter (fun c => ¬ c = pat))

/-- The key template of `readCanisterIds`:
the given prefix (empty when absent), the canister name uppercased,
then the literal `_CANISTER_ID`. -/
def canisterKey (pfx : Option String) (canisterName : String) : String :=
  (pfx.getD "") ++ jsToUpperCase canisterName ++ "_CANISTER_ID"

/-- The `reduce` fold in `readCanisterIds` over `Object.entries(config)`. -/
def buildCanisterRecord (pfx : Option String) (network : String)
    (config : List (String × CanisterDetails)) : Record :=
  config.foldl
    (fun acc current => recSet acc (canisterKey pfx current.1) (detailsGet current.2 network))
    []

/-- Outcome of one of the two canister-id readers: the returned record,
how many `console.warn` calls were made, and whether `readFileSync` was
attempted on the configuration file. -/
structure RunResult where
  record : Record
  warnings : Nat
  fileRead : Bool
  deriving DecidableEq

/-- The source `readCanisterIds` (vite configuration).  The network only
selects which path is read; the file argument stands for the parsed
contents of that file, `none` for any read or parse failure, which the
source catches (`console.warn`, return `\x7b\x7d`). -/
def readCanisterIds (pfx : Option String) (network : String)
    (file : Option (List (String × CanisterDetails))) : RunResult :=
  match file with
  | none => ⟨[], 1, true⟩
  | some config => ⟨buildCanisterRecord pfx network config, 0, true⟩

/-- The nested `id` object of a remote canister declaration in `dfx.json`. -/
structure RemoteId where
  ic : String
  /-- Source field name `local` (a Lean keyword). -/
  localId : String
  deriving DecidableEq

/-- The `remote` object of a canister declaration in `dfx.json`. -/
structure RemoteCanister where
  id : RemoteId
  deriving DecidableEq

/-- The per-canister object of `dfx.json`, as `dfxCanisterIds` declares it:
`type Details = \x7b remote?: \x7b id: \x7b ic; local \x7d \x7d \x7d`. -/
structure DfxDetails where
  remote : Option RemoteCanister
  deriving DecidableEq

/-- The key template of `dfxCanisterIds`: the prefix, then the canister
name with every `-` replaced by `_` and every apostrophe removed, then
uppercased, then the literal `_CANISTER_ID`. -/
def dfxKey (pfx : Option String) (canisterName : String) : String :=
  (pfx.getD "") ++
    jsToUpperCase (jsRemoveAllChar (jsReplaceAllChar canisterName '-' '_') (Char.ofNat 39))
    ++ "_CANISTER_ID"

/-- The `reduce` fold in `dfxCanisterIds` over `Object.entries(canisters)`:
a canister contributes a binding exactly when its `remote` field is defined. -/
def buildDfxRecord (pfx : Option String)
    (canisters : List (String × DfxDetails)) : Record :=
  canisters.foldl
    (fun acc current =>
      match current.2.remote with
      | some r => recSet acc (dfxKey pfx current.1) (some r.id.localId)
      | none => acc)
    []

/-- The source `dfxCanisterIds` (vite configuration).  On the `ic` and
`staging` networks it returns `\x7b\x7d` before any file access; otherwise
the file argument stands for the parsed `canisters` object of `dfx.json`,
`none` for any read or parse failure, which the source catches. -/
def dfxCanisterIds (pfx : Option String) (network : String)
    (file : Option (List (String × DfxDetails))) : RunResult :=
  if ["ic", "staging"].contains network then
    ⟨[], 0, false⟩
  else
    match file with
    | none => ⟨[], 1, true⟩
    | some canisters => ⟨buildDfxRecord pfx canisters, 0, true⟩

/-- The module-level `const network = process.env.DFX_NETWORK ?? "local"`. -/
def resolveNetwork (dfxNetworkEnv : Option String) : String :=
  dfxNetworkEnv.getD "local"

/-- The environment-relevant output of the exported `defineConfig`
callback: the expanded `process.env` object and the object placed under
`define["process.env"]`. -/
structure ViteEnvConfig where
  processEnv : Record
  defineProcessEnv : Record

/-- The exported `defineConfig` callback (vite configuration), restricted
to its environment effects: `process.env` is expanded with `loadEnv`
output and the `VITE_`-prefixed canister-id records, and
`define["process.env"]` receives the unprefixed records plus
`DFX_NETWORK` bound to the resolved network. -/
def defineConfig (env loaded : Record) (dfxNetworkEnv : Option String)
    (canisterIdsFile : Option (List (String × CanisterDetails)))
    (dfxJsonFile : Option (List (String × DfxDetails))) : ViteEnvConfig :=
  let network := resolveNetwork dfxNetworkEnv
  { processEnv :=
      recMerge
        (recMerge (recMerge env loaded)
          (readCanisterIds (some "VITE_") network canisterIdsFile).record)
        (dfxCanisterIds (some "VITE_") network dfxJsonFile).record
    defineProcessEnv :=
      recSet
        (recMerge (readCanisterIds none network canisterIdsFile).record
          (dfxCanisterIds none network dfxJsonFile).record)
        "DFX_NETWORK" (some network) }

/-! ## Record lemmas -/

theorem mem_recKeys_cons (p : String × Option String) (t : Record) (k : String) :
    k ∈ recKeys (p :: t) ↔ p.1 = k ∨ k ∈ recKeys t := by
  simp [recKeys, eq_comm]

theorem mem_recKeys_iff (r : Record) (k : String) :
    k ∈ recKeys r ↔ ∃ v, (k, v) ∈ r := by
  unfold recKeys
  rw [List.mem_map]
  constructor
  · rintro ⟨p, hp, rfl⟩
    exact ⟨p.2, hp⟩
  · rintro ⟨v, hv⟩
    exact ⟨(k, v), hv, rfl⟩

theorem recKeys_overwrite (r : Record) (k : String) (v : Option String) :
    recKeys (r.map (fun p => if p.1 = k then (k, v) else p)) = recKeys r := by
  unfold recKeys
  rw [List.map_map]
  apply List.map_congr_left
  intro p _
  by_cases h : p.1 = k
  · simp [h]
  · simp [h]

theorem contains_recKeys_iff (r : Record) (k : String) :
    (recKeys r).contains k = true ↔ k ∈ recKeys r := by
  constructor
  · intro h
    exact List.elem_iff.mp h
  · intro h
    exact List.elem_iff.mpr h

theorem mem_recKeys_recSet (r : Record) (k k' : String) (v : Option String) :
    k' ∈ recKeys (recSet r k v) ↔ k' ∈ recKeys r ∨ k' = k := by
  unfold recSet
  split
  case isTrue h =>
    rw [recKeys_overwrite]
    constructor
    · exact Or.inl
    · rintro (h1 | h2)
      · exact h1
      · rw [h2]
        exact (contains_recKeys_iff r k).mp h
  case isFalse h =>
    simp [recKeys]

theorem find?_overwrite_self (r : Record) (k : String) (v : Option String)
    (hk : k ∈ recKeys r) :
    (r.map (fun p => if p.1 = k then (k, v) else p)).find? (fun p => p.1 = k)
      = some (k, v) := by
  induction r with
  | nil => simp [recKeys] at hk
  | cons p t ih =>
    rw [List.map_cons]
    by_cases hp : p.1 = k
    · rw [if_pos hp]
      rw [List.find?_cons_of_pos]
      simp
    · rw [if_neg hp]
      rw [List.find?_cons_of_neg _ (by simpa using hp)]
      apply ih
      rcases (mem_recKeys_cons p t k).mp hk with h1 | h1
      · exact absurd h1 hp
      · exact h1

theorem find?_overwrite_ne (r : Record) (k : String) (v : Option String) (k' : String)
    (h : ¬ k' = k) :
    (r.map (fun p => if p.1 = k then (k, v) else p)).find? (fun p => p.1 = k')
      = r.find? (fun p => p.1 = k') := by
  induction r with
  | nil => rfl
  | cons p t ih =>
    rw [List.map_cons]
    by_cases hp : p.1 = k
    · rw [if_pos hp]
      rw [List.find?_cons_of_neg _ (by simpa using fun he => h he.symm)]
      rw [List.find?_cons_of_neg _ (by simp [hp]; exact fun he => h he.symm)]
      exact ih
    · rw [if_neg hp]
      by_cases hq : p.1 = k'
      · rw [List.find?_cons_of_pos _ (by simpa using hq)]
        rw [List.find?_cons_of_pos _ (by simpa using hq)]
      · rw [List.find?_cons_of_neg _ (by simpa using hq)]
        rw [List.find?_cons_of_neg _ (by simpa using hq)]
        exact ih

theorem recGet_recSet_self (r : Record) (k : String) (v : Option String) :
    recGet (recSet r k v) k = some v := by
  unfold recSet recGet
  split
  case isTrue h =>
    rw [find?_overwrite_self r k v ((contains_recKeys_iff r k).mp h)]
    rfl
  case isFalse h =>
    have hk : ¬ k ∈ recKeys r := fun hm => h ((contains_recKeys_iff r k).mpr hm)
    have hnone : r.find? (fun p => p.1 = k) = none := by
      rw [List.find?_eq_none]
      intro p hp hpk
      exact hk ((mem_recKeys_iff r k).mpr ⟨p.2, by
        have : p.1 = k := by simpa using hpk
        rw [← this]
        exact hp⟩)
    rw [List.find?_append, hnone]
    simp

theorem recGet_recSet_ne (r : Record) (k : String) (v : Option String) (k' : String)
    (h : ¬ k' = k) :
    recGet (recSet r k v) k' = recGet r k' := by
  unfold recSet recGet
  split
  · rw [find?_overwrite_ne r k v k' h]
  · rw [List.find?_append]
    have hsingle : ([(k, v)] : Record).find? (fun p => p.1 = k') = none := by
      rw [List.find?_eq_none]
      intro p hp
      simp at hp
      rw [hp]
      simpa using fun he => h he.symm
    rw [hsingle, Option.or_none]

/-! ## Merge lemmas -/

theorem recMerge_nil (a : Record) : recMerge a [] = a := rfl

theorem recMerge_cons (a : Record) (e : String × Option String)
    (t : List (String × Option String)) :
    recMerge a (e :: t) = recMerge (recSet a e.1 e.2) t := rfl

theorem mem_recKeys_recMerge (a b : Record) (k : String) :
    k ∈ recKeys (recMerge a b) ↔ k ∈ recKeys a ∨ k ∈ recKeys b := by
  induction b generalizing a with
  | nil => simp [recMerge, recKeys]
  | cons e t ih =>
    rw [recMerge_cons, ih, mem_recKeys_recSet, mem_recKeys_cons]
    tauto

theorem recGet_recMerge_not_mem (a b : Record) (k : String)
    (h : ¬ k ∈ recKeys b) :
    recGet (recMerge a b) k = recGet a k := by
  induction b generalizing a with
  | nil => rfl
  | cons e t ih =>
    have h1 : ¬ e.1 = k := fun he => h ((mem_recKeys_cons e t k).mpr (Or.inl he))
    have h2 : ¬ k ∈ recKeys t := fun hm => h ((mem_recKeys_cons e t k).mpr (Or.inr hm))
    rw [recMerge_cons, ih _ h2, recGet_recSet_ne _ _ _ _ (fun he => h1 he.symm)]

theorem recGet_recMerge_mem_const (a b : Record) (k : String) (v : Option String)
    (hmem : k ∈ recKeys b) (hval : ∀ p ∈ b, p.1 = k → p.2 = v) :
    recGet (recMerge a b) k = some v := by
  induction b generalizing a with
  | nil => simp [recKeys] at hmem
  | cons e t ih =>
    rw [recMerge_cons]
    by_cases hk : k ∈ recKeys t
    · exact ih _ hk (fun p hp => hval p (List.mem_cons_of_mem e hp))
    · rcases (mem_recKeys_cons e t k).mp hmem with h1 | h1
      · rw [recGet_recMerge_not_mem _ _ _ hk]
        have hv : e.2 = v := hval e (List.mem_cons_self e t) h1
        rw [← h1, recGet_recSet_self, hv]
      · exact absurd h1 hk

theorem recGet_recMerge_mem_nodup (a b : Record) (k : String) (v : Option String)
    (hnd : (recKeys b).Nodup) (hmem : (k, v) ∈ b) :
    recGet (recMerge a b) k = some v := by
  apply recGet_recMerge_mem_const
  · exact (mem_recKeys_iff b k).mpr ⟨v, hmem⟩
  · intro p hp hpk
    have hinj := List.inj_on_of_nodup_map (f := Prod.fst) (by simpa [recKeys] using hnd)
    have hpe : p = (k, v) := hinj hp hmem (by simpa using hpk)
    rw [hpe]

/-! ## Bridges from the source folds to record merges -/

theorem buildCanisterRecord_eq (pfx : Option String) (network : String)
    (config : List (String × CanisterDetails)) :
    buildCanisterRecord pfx network config
      = recMerge []
          (config.map (fun p => (canisterKey pfx p.1, detailsGet p.2 network))) := by
  unfold buildCanisterRecord recMerge
  rw [List.foldl_map]

theorem buildDfxRecord_aux (pfx : Option String)
    (canisters : List (String × DfxDetails)) (acc : Record) :
    canisters.foldl
        (fun a current =>
          match current.2.remote with
          | some r => recSet a (dfxKey pfx current.1) (some r.id.localId)
          | none => a)
        acc
      = (canisters.filterMap
            (fun p => p.2.remote.map (fun r => (dfxKey pfx p.1, some r.id.localId)))).foldl
          (fun a e => recSet a e.1 e.2) acc := by
  induction canisters generalizing acc with
  | nil => rfl
  | cons p t ih =>
    rw [List.foldl_cons, List.filterMap_cons]
    cases hr : p.2.remote with
    | none => exact ih acc
    | some r => exact ih (recSet acc (dfxKey pfx p.1) (some r.id.localId))

theorem buildDfxRecord_eq (pfx : Option String)
    (canisters : List (String × DfxDetails)) :
    buildDfxRecord pfx canisters
      = recMerge []
          (canisters.filterMap
            (fun p => p.2.remote.map (fun r => (dfxKey pfx p.1, some r.id.localId)))) := by
  unfold buildDfxRecord recMerge
  exact buildDfxRecord_aux pfx canisters []

/-! ## Post-message envelope types -/

/-- Modelled from the spec: the imported type `UserOption` from
`$lib/types/user` is not in the supplied source; the spec describes the
`user` field only as "a user selection", so it is modelled as an optional
user identifier. -/
abbrev UserOption : Type := Option String

/-- The source `PostMessageDataRequest`: `user` and `governanceId`, plus
the fields `satelliteId` and `localIdentityCanisterId` picked from the
external `Environment` type of the juno client library.  Modelled from
the spec for the picked fields: the `Environment` type is not in the
supplied source and the spec calls them "two deployment-environment
identifiers", so both are modelled as strings. -/
structure PostMessageDataRequest where
  user : UserOption
  governanceId : String
  satelliteId : String
  localIdentityCanisterId : String

/-- A JavaScript `object` value, for the `object`-typed aliases. -/
abbrev JsObject : Type := List (String × String)

/-- The source `PostMessageDataResponse = object`. -/
abbrev PostMessageDataResponse : Type := JsObject

/-- The source type `PostMessageRequest`, the string-literal union
`start | stop | busy | idle`: strings restricted to the four literals. -/
abbrev PostMessageRequest : Type :=
  {s : String // s = "start" ∨ s = "stop" ∨ s = "busy" ∨ s = "idle"}

/-- The source `PostMessageResponse = object`: an open-ended object type. -/
abbrev PostMessageResponse : Type := JsObject

/-- The source interface `PostMessage<T>`: the tag
`msg: PostMessageRequest | PostMessageResponse` and the optional payload
`data?: T`. -/
structure PostMessage (T : Type) where
  msg : Sum PostMessageRequest PostMessageResponse
  data : Option T

/-! ## Claim theorems -/

/-- C1: for every configuration-file path, if reading or parsing the file
fails (modelled by the `none` input, covering a missing file), then
`readCanisterIds`, and `dfxCanisterIds` whenever it attempts the read
(every network other than `ic` and `staging`), each return the empty
mapping and emit exactly one warning. -/
theorem readCanisterIds_dfxCanisterIds_failure_warns_once
    (pfx : Option String) (network : String) :
    readCanisterIds pfx network none = ⟨[], 1, true⟩
    ∧ (["ic", "staging"].contains network = false →
        dfxCanisterIds pfx network none = ⟨[], 1, true⟩) := by
  constructor
  · rfl
  · intro h
    unfold dfxCanisterIds
    rw [h]
    rfl

/-- C1 witness: on the `local` network with both files unreadable, each
reader returns the empty record and one warning. -/
theorem readCanisterIds_dfxCanisterIds_failure_warns_once_witness :
    readCanisterIds none "local" none = ⟨[], 1, true⟩
    ∧ dfxCanisterIds none "local" none = ⟨[], 1, true⟩ :=
  ⟨(readCanisterIds_dfxCanisterIds_failure_warns_once none "local").1,
   (readCanisterIds_dfxCanisterIds_failure_warns_once none "local").2 (by decide)⟩

/-- C6: both readers are total functions of their input (no exception
escapes them in the source: every fallible step is inside the `try`), a
failed read yields the empty record, never a partial one, and at most one
warning is ever emitted, so no retry happens. -/
theorem canisterIds_total_no_partial_failure
    (pfx : Option String) (network : String)
    (canisterIdsFile : Option (List (String × CanisterDetails)))
    (dfxJsonFile : Option (List (String × DfxDetails))) :
    (readCanisterIds pfx network none).record = []
    ∧ (dfxCanisterIds pfx network none).record = []
    ∧ (readCanisterIds pfx network canisterIdsFile).warnings ≤ 1
    ∧ (dfxCanisterIds pfx network dfxJsonFile).warnings ≤ 1 := by
  refine ⟨rfl, ?_, ?_, ?_⟩
  · unfold dfxCanisterIds
    split
    · rfl
    · rfl
  · cases canisterIdsFile <;> simp [readCanisterIds]
  · unfold dfxCanisterIds
    split
    · simp
    · cases dfxJsonFile <;> simp

/-- C8: on the `ic` and `staging` networks, `dfxCanisterIds` returns the
empty mapping with no warning and without attempting to read `dfx.json`,
whatever the prefix and whatever the file holds. -/
theorem dfxCanisterIds_ic_staging_no_read
    (pfx : Option String) (file : Option (List (String × DfxDetails))) :
    dfxCanisterIds pfx "ic" file = ⟨[], 0, false⟩
    ∧ dfxCanisterIds pfx "staging" file = ⟨[], 0, false⟩ :=
  ⟨rfl, rfl⟩

/-- C2 counterexample: the claim fails as stated.  With the parsed mapping
`\x7b "abc": \x7b local: "aaa" \x7d, "ABC": \x7b local: "bbb" \x7d \x7d` on the
`local` network, both canister names synthesize the key
`ABC_CANISTER_ID`, and the later entry overwrites the earlier one, so the
key is bound to `"bbb"` and not to the entry of the canister `abc`. -/
theorem readCanisterIds_key_collision_counterexample :
    ¬ (∀ (pfx : Option String) (network : String)
        (config : List (String × CanisterDetails)),
        (∀ p ∈ config,
          recGet ((readCanisterIds pfx network (some config)).record)
              (canisterKey pfx p.1)
            = some (detailsGet p.2 network))
        ∧ (∀ k ∈ recKeys ((readCanisterIds pfx network (some config)).record),
            ∃ p ∈ config, k = canisterKey pfx p.1)) := by
  intro h
  have h2 := (h none "local"
      [("abc", [("local", "aaa")]), ("ABC", [("local", "bbb")])]).1
      ("abc", [("local", "aaa")]) (by decide)
  exact absurd h2 (by decide)

/-- C2 (amended): provided no two canister names of the parsed mapping
synthesize the same key, the record returned by `readCanisterIds`
contains, for every canister name `N` of the mapping, the key formed by
the given prefix (empty when absent), `N` uppercased and `_CANISTER_ID`,
bound to the entry of that canister for the current network, and the
record contains no other keys. -/
theorem readCanisterIds_distinct_keys_exact_bindings
    (pfx : Option String) (network : String)
    (config : List (String × CanisterDetails))
    (hnd : (config.map (fun p => canisterKey pfx p.1)).Nodup) :
    (∀ p ∈ config,
        recGet ((readCanisterIds pfx network (some config)).record)
          (canisterKey pfx p.1) = some (detailsGet p.2 network))
    ∧ (∀ k ∈ recKeys ((readCanisterIds pfx network (some config)).record),
        ∃ p ∈ config, k = canisterKey pfx p.1) := by
  have hrec : (readCanisterIds pfx network (some config)).record
      = recMerge []
          (config.map fun p => (canisterKey pfx p.1, detailsGet p.2 network)) :=
    buildCanisterRecord_eq pfx network config
  constructor
  · intro p hp
    rw [hrec]
    apply recGet_recMerge_mem_nodup
    · have hkeys : recKeys
          (config.map fun p => (canisterKey pfx p.1, detailsGet p.2 network))
          = config.map (fun p => canisterKey pfx p.1) := by
        unfold recKeys
        rw [List.map_map]
        rfl
      rw [hkeys]
      exact hnd
    · exact List.mem_map_of_mem _ hp
  · intro k hk
    rw [hrec, mem_recKeys_recMerge] at hk
    rcases hk with hk | hk
    · simp [recKeys] at hk
    · rcases (mem_recKeys_iff _ _).mp hk with ⟨v, hv⟩
      rcases List.mem_map.mp hv with ⟨q, hq, he⟩
      exact ⟨q, hq, (congrArg Prod.fst he).symm⟩

/-- C2 witness: a one-canister mapping on the `local` network, with the
`VITE_` prefix, yields the binding `VITE_COUNTER_CANISTER_ID = "rrkah"`. -/
theorem readCanisterIds_distinct_keys_exact_bindings_witness :
    recGet ((readCanisterIds (some "VITE_") "local"
        (some [("counter", [("local", "rrkah")])])).record)
      (canisterKey (some "VITE_") "counter") = some (some "rrkah") :=
  (readCanisterIds_distinct_keys_exact_bindings (some "VITE_") "local"
      [("counter", [("local", "rrkah")])] (by decide)).1
    ("counter", [("local", "rrkah")]) (by decide)

/-- C10: when the current network has no entry in the details object of a
canister (and no other canister overwrites that key with a defined
value), `readCanisterIds` still includes the synthesized key in the
returned record, bound to the JS value `undefined` (`none`), although the
declared return type promises string values. -/
theorem readCanisterIds_missing_network_undefined_value
    (pfx : Option String) (network : String)
    (config : List (String × CanisterDetails))
    (canisterName : String) (details : CanisterDetails)
    (hmem : (canisterName, details) ∈ config)
    (hlast : ∀ p ∈ config,
        canisterKey pfx p.1 = canisterKey pfx canisterName →
        detailsGet p.2 network = none) :
    canisterKey pfx canisterName
        ∈ recKeys ((readCanisterIds pfx network (some config)).record)
    ∧ recGet ((readCanisterIds pfx network (some config)).record)
        (canisterKey pfx canisterName) = some none := by
  have hrec : (readCanisterIds pfx network (some config)).record
      = recMerge []
          (config.map fun p => (canisterKey pfx p.1, detailsGet p.2 network)) :=
    buildCanisterRecord_eq pfx network config
  constructor
  · rw [hrec, mem_recKeys_recMerge]
    right
    rw [mem_recKeys_iff]
    exact ⟨detailsGet details network, List.mem_map_of_mem _ hmem⟩
  · rw [hrec]
    apply recGet_recMerge_mem_const
    · rw [mem_recKeys_iff]
      exact ⟨detailsGet details network, List.mem_map_of_mem _ hmem⟩
    · intro p hp hpk
      rcases List.mem_map.mp hp with ⟨q, hq, rfl⟩
      exact hlast q hq hpk

/-- C10 witness: on a network named `testnet`, absent from the only
canister entry, the key is present and bound to `undefined`. -/
theorem readCanisterIds_missing_network_undefined_value_witness :
    canisterKey none "counter"
        ∈ recKeys ((readCanisterIds none "testnet"
            (some [("counter", [("local", "aaa")])])).record)
    ∧ recGet ((readCanisterIds none "testnet"
          (some [("counter", [("local", "aaa")])])).record)
        (canisterKey none "counter") = some none :=
  readCanisterIds_missing_network_undefined_value none "testnet"
    [("counter", [("local", "aaa")])] "counter" [("local", "aaa")]
    (by decide) (by decide)

/-- C9 counterexample: the claim fails as stated.  With the parsed
`canisters` object holding remote canisters named `a-b` and `a_b`, both
names normalize to the key `A_B_CANISTER_ID`; the later entry overwrites
the earlier one, so the record does not hold one entry per remote
canister and the key is not bound to `remote.id.local` of `a-b`. -/
theorem dfxCanisterIds_key_collision_counterexample :
    ¬ (∀ (pfx : Option String) (network : String)
        (canisters : List (String × DfxDetails)),
        ["ic", "staging"].contains network = false →
        (∀ p ∈ canisters, ∀ r, p.2.remote = some r →
            recGet ((dfxCanisterIds pfx network (some canisters)).record)
              (dfxKey pfx p.1) = some (some r.id.localId))
        ∧ (∀ k ∈ recKeys ((dfxCanisterIds pfx network (some canisters)).record),
            ∃ p ∈ canisters, p.2.remote.isSome = true ∧ k = dfxKey pfx p.1)) := by
  intro h
  have h2 := (h none "local"
      [("a-b", ⟨some ⟨⟨"x", "111"⟩⟩⟩), ("a_b", ⟨some ⟨⟨"y", "222"⟩⟩⟩)]
      (by decide)).1
      ("a-b", ⟨some ⟨⟨"x", "111"⟩⟩⟩) (by decide) ⟨⟨"x", "111"⟩⟩ rfl
  exact absurd h2 (by decide)

/-- C9 (amended): provided no two remote canister names of the parsed
`dfx.json` normalize to the same key, `dfxCanisterIds` (off the `ic` and
`staging` networks) binds, for every canister whose `remote` field is
defined, the key formed by the prefix, the name with `-` replaced by `_`
and apostrophes removed, uppercased, plus `_CANISTER_ID`, to
`remote.id.local`; canisters without a `remote` field contribute nothing
and the record holds no other keys. -/
theorem dfxCanisterIds_remote_exact_bindings
    (pfx : Option String) (network : String)
    (canisters : List (String × DfxDetails))
    (hn : ["ic", "staging"].contains network = false)
    (hnd : (canisters.filterMap
        (fun p => p.2.remote.map (fun _ => dfxKey pfx p.1))).Nodup) :
    (∀ p ∈ canisters, ∀ r, p.2.remote = some r →
        recGet ((dfxCanisterIds pfx network (some canisters)).record)
          (dfxKey pfx p.1) = some (some r.id.localId))
    ∧ (∀ k ∈ recKeys ((dfxCanisterIds pfx network (some canisters)).record),
        ∃ p ∈ canisters, p.2.remote.isSome = true ∧ k = dfxKey pfx p.1) := by
  have hrec : (dfxCanisterIds pfx network (some canisters)).record
      = recMerge []
          (canisters.filterMap
            (fun p => p.2.remote.map (fun r => (dfxKey pfx p.1, some r.id.localId)))) := by
    unfold dfxCanisterIds
    rw [hn]
    exact buildDfxRecord_eq pfx canisters
  have hkeys : recKeys
      (canisters.filterMap
        (fun p => p.2.remote.map (fun r => (dfxKey pfx p.1, some r.id.localId))))
      = canisters.filterMap (fun p => p.2.remote.map (fun _ => dfxKey pfx p.1)) := by
    unfold recKeys
    rw [List.map_filterMap]
    apply List.filterMap_congr
    intro p _
    cases p.2.remote with
    | none => rfl
    | some r => rfl
  constructor
  · intro p hp r hr
    rw [hrec]
    apply recGet_recMerge_mem_nodup
    · rw [hkeys]
      exact hnd
    · rw [List.mem_filterMap]
      exact ⟨p, hp, by rw [hr]; rfl⟩
  · intro k hk
    rw [hrec, mem_recKeys_recMerge] at hk
    rcases hk with hk | hk
    · simp [recKeys] at hk
    · rw [hkeys, List.mem_filterMap] at hk
      rcases hk with ⟨p, hp, he⟩
      cases hr : p.2.remote with
      | none =>
        rw [hr] at he
        exact absurd he (by simp)
      | some r =>
        rw [hr] at he
        refine ⟨p, hp, by rw [hr]; rfl, ?_⟩
        have : dfxKey pfx p.1 = k := by simpa using he
        exact this.symm

/-- C9 witness: one remote and one non-remote canister; the remote one
yields its binding and the record has exactly that key. -/
theorem dfxCanisterIds_remote_exact_bindings_witness :
    recGet ((dfxCanisterIds none "local"
        (some [("internet-identity", ⟨some ⟨⟨"rdmx6", "rdmx6"⟩⟩⟩),
               ("frontend", ⟨none⟩)])).record)
      (dfxKey none "internet-identity") = some (some "rdmx6") :=
  (dfxCanisterIds_remote_exact_bindings none "local"
      [("internet-identity", ⟨some ⟨⟨"rdmx6", "rdmx6"⟩⟩⟩), ("frontend", ⟨none⟩)]
      (by decide) (by decide)).1
    ("internet-identity", ⟨some ⟨⟨"rdmx6", "rdmx6"⟩⟩⟩) (by decide)
    ⟨⟨"rdmx6", "rdmx6"⟩⟩ rfl

/-- C7: the `defineConfig` callback injects every synthesized
environment-variable name into the bundler configuration: all keys of the
`VITE_`-prefixed records of `readCanisterIds` and `dfxCanisterIds` land
in the expanded `process.env`, all keys of the unprefixed records land
under `define["process.env"]`, and `DFX_NETWORK` is bound there to the
resolved network. -/
theorem defineConfig_injects_env
    (env loaded : Record) (dfxNetworkEnv : Option String)
    (canisterIdsFile : Option (List (String × CanisterDetails)))
    (dfxJsonFile : Option (List (String × DfxDetails))) :
    recKeys ((readCanisterIds (some "VITE_") (resolveNetwork dfxNetworkEnv)
          canisterIdsFile).record)
        ⊆ recKeys ((defineConfig env loaded dfxNetworkEnv canisterIdsFile
            dfxJsonFile).processEnv)
    ∧ recKeys ((dfxCanisterIds (some "VITE_") (resolveNetwork dfxNetworkEnv)
          dfxJsonFile).record)
        ⊆ recKeys ((defineConfig env loaded dfxNetworkEnv canisterIdsFile
            dfxJsonFile).processEnv)
    ∧ recKeys ((readCanisterIds none (resolveNetwork dfxNetworkEnv)
          canisterIdsFile).record)
        ⊆ recKeys ((defineConfig env loaded dfxNetworkEnv canisterIdsFile
            dfxJsonFile).defineProcessEnv)
    ∧ recKeys ((dfxCanisterIds none (resolveNetwork dfxNetworkEnv)
          dfxJsonFile).record)
        ⊆ recKeys ((defineConfig env loaded dfxNetworkEnv canisterIdsFile
            dfxJsonFile).defineProcessEnv)
    ∧ recGet ((defineConfig env loaded dfxNetworkEnv canisterIdsFile
          dfxJsonFile).defineProcessEnv) "DFX_NETWORK"
        = some (some (resolveNetwork dfxNetworkEnv)) := by
  have hpe : (defineConfig env loaded dfxNetworkEnv canisterIdsFile
      dfxJsonFile).processEnv
      = recMerge
          (recMerge (recMerge env loaded)
            (readCanisterIds (some "VITE_") (resolveNetwork dfxNetworkEnv)
              canisterIdsFile).record)
          (dfxCanisterIds (some "VITE_") (resolveNetwork dfxNetworkEnv)
            dfxJsonFile).record := rfl
  have hde : (defineConfig env loaded dfxNetworkEnv canisterIdsFile
      dfxJsonFile).defineProcessEnv
      = recSet
          (recMerge
            (readCanisterIds none (resolveNetwork dfxNetworkEnv)
              canisterIdsFile).record
            (dfxCanisterIds none (resolveNetwork dfxNetworkEnv)
              dfxJsonFile).record)
          "DFX_NETWORK" (some (resolveNetwork dfxNetworkEnv)) := rfl
  refine ⟨?_, ?_, ?_, ?_, ?_⟩
  · intro k hk
    rw [hpe, mem_recKeys_recMerge, mem_recKeys_recMerge]
    exact Or.inl (Or.inr hk)
  · intro k hk
    rw [hpe, mem_recKeys_recMerge]
    exact Or.inr hk
  · intro k hk
    rw [hde, mem_recKeys_recSet, mem_recKeys_recMerge]
    exact Or.inl (Or.inl hk)
  · intro k hk
    rw [hde, mem_recKeys_recSet, mem_recKeys_recMerge]
    exact Or.inl (Or.inr hk)
  · rw [hde]
    exact recGet_recSet_self _ _ _

/-- C7 witness: with a one-canister `canister_ids.json` and an empty
`dfx.json`, the synthesized `VITE_` key is in the expanded `process.env`
and `define["process.env"].DFX_NETWORK` is the resolved network. -/
theorem defineConfig_injects_env_witness :
    canisterKey (some "VITE_") "counter"
        ∈ recKeys ((defineConfig [] [] none
            (some [("counter", [("local", "xxx")])]) (some [])).processEnv)
    ∧ recGet ((defineConfig [] [] none
          (some [("counter", [("local", "xxx")])]) (some [])).defineProcessEnv)
        "DFX_NETWORK" = some (some "local") :=
  ⟨(defineConfig_injects_env [] [] none
        (some [("counter", [("local", "xxx")])]) (some [])).1 (by decide),
   (defineConfig_injects_env [] [] none
        (some [("counter", [("local", "xxx")])]) (some [])).2.2.2.2⟩

/-- C3 counterexample: the claim fails on the code.  In the source type,
`data?: T` is optional independently of `msg`, so no message kind
requires a payload, yet the type does not forbid one on any kind either:
for the kind `stop`, a value without a payload shows the kind does not
require one, and a well-typed value with a payload shows the type does
not forbid one. -/
theorem postMessage_payload_not_forbidden_counterexample :
    ¬ (∀ k : PostMessageRequest,
        ¬ (∀ v : PostMessage PostMessageDataRequest,
            v.msg = Sum.inl k → v.data.isSome = true) →
        (∀ v : PostMessage PostMessageDataRequest,
            v.msg = Sum.inl k → v.data = none)) := by
  intro h
  have hnr : ¬ (∀ v : PostMessage PostMessageDataRequest,
      v.msg = Sum.inl ⟨"stop", Or.inr (Or.inl rfl)⟩ → v.data.isSome = true) := by
    intro hall
    have h0 := hall ⟨Sum.inl ⟨"stop", Or.inr (Or.inl rfl)⟩, none⟩ rfl
    simp at h0
  have h1 := h ⟨"stop", Or.inr (Or.inl rfl)⟩ hnr
      ⟨Sum.inl ⟨"stop", Or.inr (Or.inl rfl)⟩, some ⟨none, "", "", ""⟩⟩ rfl
  simp at h1

/-- C3 (amended): the payload is optional for every message kind: for
each of the four request kinds the envelope type admits both a value with
`data` absent and a value with `data` present, so payload presence is
independent of the message kind (the type neither requires nor forbids
it). -/
theorem postMessage_payload_optional_every_kind (k : PostMessageRequest) :
    (∃ v : PostMessage PostMessageDataRequest,
        v.msg = Sum.inl k ∧ v.data = none)
    ∧ (∃ v : PostMessage PostMessageDataRequest,
        v.msg = Sum.inl k ∧ v.data.isSome = true) :=
  ⟨⟨⟨Sum.inl k, none⟩, rfl, rfl⟩,
   ⟨⟨Sum.inl k, some ⟨none, "", "", ""⟩⟩, rfl, rfl⟩⟩

/-- C4: the request tag type admits exactly the four strings `start`,
`stop`, `busy` and `idle`, while every object value is admitted as a
response tag (`PostMessageResponse = object` is open-ended). -/
theorem postMessageRequest_four_values_response_open :
    (∀ s : String,
        (∃ r : PostMessageRequest, r.val = s)
          ↔ (s = "start" ∨ s = "stop" ∨ s = "busy" ∨ s = "idle"))
    ∧ (∀ o : JsObject, ∃ r : PostMessageResponse, r = o) := by
  constructor
  · intro s
    constructor
    · rintro ⟨r, rfl⟩
      exact r.property
    · intro hs
      exact ⟨⟨s, hs⟩, rfl⟩
  · intro o
    exact ⟨o, rfl⟩

/-- C5: a request payload carries exactly the four fields `user`,
`governanceId`, `satelliteId` and `localIdentityCanisterId`: every value
is determined by those four projections, and every combination of the
four occurs. -/
theorem postMessageDataRequest_exactly_four_fields :
    (∀ a : PostMessageDataRequest,
        a = ⟨a.user, a.governanceId, a.satelliteId, a.localIdentityCanisterId⟩)
    ∧ (∀ (u : UserOption) (g s l : String),
        (⟨u, g, s, l⟩ : PostMessageDataRequest).user = u
        ∧ (⟨u, g, s, l⟩ : PostMessageDataRequest).governanceId = g
        ∧ (⟨u, g, s, l⟩ : PostMessageDataRequest).satelliteId = s
        ∧ (⟨u, g, s, l⟩ : PostMessageDataRequest).localIdentityCanisterId = l) :=
  ⟨fun _ => rfl, fun _ _ _ _ => ⟨rfl, rfl, rfl, rfl⟩⟩
